import Mathlib

/-!
# Verification of the net-speed-test network engine

Shallow embedding of the pure/decidable core of the repository's main-process
modules (`src/main/speedtest.js`, `src/main/network.js`, `src/main/traffic.js`,
and the ipc handler in the Electron main file), together with theorems settling
the specification claims.

Numeric values (round-trip times, byte counts, throughput) are modelled as
rationals / naturals; all values arising in the code are non-negative, so
JavaScript `toFixed` (round half away from zero) is modelled as round half up.
-/

deriving instance DecidableEq for Except

namespace NetPulse

/-- JS `parseFloat(x.toFixed(1))` for non-negative `x`: round to one decimal. -/
def round1 (q : ℚ) : ℚ := (Int.floor (q * 10 + 1/2) : ℚ) / 10

/-- JS `parseFloat(x.toFixed(2))` for non-negative `x`: round to two decimals. -/
def round2 (q : ℚ) : ℚ := (Int.floor (q * 100 + 1/2) : ℚ) / 100

/-- The typed errors the speed-test stages reject with. -/
inductive SpeedError
  | pingFailed
  | downloadFailed
  | uploadFailed
  deriving DecidableEq, Repr

/-- `measurePing`'s `finish`: `results` is the list of successful round-trip
times in completion order (failed/timed-out attempts pushed nothing).  Rejects
when no attempt succeeded; otherwise sorts ascending and resolves
`parseFloat(results[Math.floor(results.length / 2)].toFixed(1))`. -/
def pingFinish (results : List ℚ) : Except SpeedError ℚ :=
  if results.length = 0 then .error .pingFailed
  else
    let sorted := List.insertionSort (· ≤ ·) results
    .ok (round1 (sorted.getD (sorted.length / 2) 0))

/-- `measureDownload`'s `finish`: given elapsed seconds and total bytes
received, rejects when `elapsed === 0 || totalBytes === 0`, else resolves
`(totalBytes * 8) / (elapsed * 1_000_000)` Mbps to two decimals. -/
def downloadFinish (elapsedSec : ℚ) (totalBytes : ℕ) : Except SpeedError ℚ :=
  if elapsedSec = 0 ∨ totalBytes = 0 then .error .downloadFailed
  else .ok (round2 ((totalBytes * 8 : ℚ) / (elapsedSec * 1000000)))

/-- `measureUpload`'s `finish`: identical arithmetic, rejecting with the
upload error when `elapsed === 0 || totalBytes === 0`. -/
def uploadFinish (elapsedSec : ℚ) (totalBytes : ℕ) : Except SpeedError ℚ :=
  if elapsedSec = 0 ∨ totalBytes = 0 then .error .uploadFailed
  else .ok (round2 ((totalBytes * 8 : ℚ) / (elapsedSec * 1000000)))

/-! ## Speed-test single-flight guard

The Electron main process keeps a module-level `speedTestRunning` flag; the
`ipcMain.handle("speedtest:run")` handler checks it, rejects with the
`AlreadyRunning` error when set, and otherwise sets it, starts a measurement
run, and clears it in a `finally` block when the run settles. -/

/-- Outcome of one invocation of the `speedtest:run` handler's entry check. -/
inductive StartOutcome
  | rejected   -- returned `{ error: "A speed test is already running" }`
  | started    -- set the flag and began a measurement run
  deriving DecidableEq, Repr

/-- Process-wide state: the `speedTestRunning` flag, plus an auxiliary count of
measurement runs that have been started and have not yet settled. -/
structure EngineState where
  running : Bool
  activeRuns : ℕ
  deriving DecidableEq, Repr

/-- Entry of `ipcMain.handle("speedtest:run")`: if the flag is set, return the
error without starting anything; otherwise set the flag and start a run. -/
def tryStart (s : EngineState) : EngineState × StartOutcome :=
  if s.running then (s, .rejected)
  else ({ running := true, activeRuns := s.activeRuns + 1 }, .started)

/-- The handler's `finally` block: a settled run (success or error) clears the
flag unconditionally. -/
def finishRun (s : EngineState) : EngineState :=
  { running := false, activeRuns := s.activeRuns - 1 }

/-- States reachable from process start by handler invocations and run
completions; a completion event can only belong to a run that was started,
hence the `activeRuns ≠ 0` side condition. -/
inductive EngineReach : EngineState → Prop
  | init : EngineReach ⟨false, 0⟩
  | call {s : EngineState} : EngineReach s → EngineReach (tryStart s).1
  | complete {s : EngineState} : EngineReach s → s.activeRuns ≠ 0 →
      EngineReach (finishRun s)

/-! ## ARP table parsing (`getArpTable` in `src/main/network.js`)

The code matches each line of `arp -a` output against one of two regexes:

  Windows: `^\s*([\d.]+)\s+([\da-fA-F]{2}[:-]... six octets ...)\s+(\w+)`
  Unix:    `\(([\d.]+)\)\s+at\s+([\da-fA-F]{2}:... six octets ...)` (searched)

In both patterns every quantifier is either of fixed width (`{2}`, literals) or
greedy over a character class disjoint from the class that must follow
(`[\d.]`/`\w`/`\s` vs `\s`/hex), so backtracking can never produce a match the
committed greedy scan misses: maximal-munch scanning implements the regex
exactly.  The Unix regex is unanchored; JS `String.match` returns the leftmost
match, modelled by trying every start position left to right.  Character
classes are modelled at ASCII (ARP output is ASCII). -/

/-- JS `[\da-fA-F]`. -/
def isHexChar (c : Char) : Bool :=
  c.isDigit || ('a' ≤ c && c ≤ 'f') || ('A' ≤ c && c ≤ 'F')

/-- JS `\s` (ASCII subset). -/
def isWsChar (c : Char) : Bool :=
  c = ' ' || c = '\t' || c = '\n' || c = '\r' || c.val = 11 || c.val = 12

/-- JS `\w`. -/
def isWordChar (c : Char) : Bool := c.isAlphanum || c = '_'

/-- JS `[\d.]`. -/
def isIpChar (c : Char) : Bool := c.isDigit || c = '.'

/-- JS `[:-]`, the octet separators of the Windows MAC pattern. -/
def isSepChar (c : Char) : Bool := c = ':' || c = '-'

/-- Match exactly two hex digits (`[\da-fA-F]{2}`), returning them and the
remaining input. -/
def matchHexPair : List Char → Option (List Char × List Char)
  | a :: b :: rest => if isHexChar a && isHexChar b then some ([a, b], rest) else none
  | _ => none

/-- Match one separator character accepted by `sepOk`. -/
def matchSep (sepOk : Char → Bool) : List Char → Option (Char × List Char)
  | c :: rest => if sepOk c then some (c, rest) else none
  | [] => none

/-- Match the six-octet MAC body `hh sep hh sep hh sep hh sep hh sep hh`,
returning the matched characters verbatim and the remaining input. -/
def matchMacBody (sepOk : Char → Bool) (cs : List Char) :
    Option (List Char × List Char) := do
  let (p1, r1) ← matchHexPair cs
  let (s1, r2) ← matchSep sepOk r1
  let (p2, r3) ← matchHexPair r2
  let (s2, r4) ← matchSep sepOk r3
  let (p3, r5) ← matchHexPair r4
  let (s3, r6) ← matchSep sepOk r5
  let (p4, r7) ← matchHexPair r6
  let (s4, r8) ← matchSep sepOk r7
  let (p5, r9) ← matchHexPair r8
  let (s5, r10) ← matchSep sepOk r9
  let (p6, r11) ← matchHexPair r10
  some (p1 ++ s1 :: p2 ++ s2 :: p3 ++ s3 :: p4 ++ s4 :: p5 ++ s5 :: p6, r11)

/-- The anchored Windows line regex; returns the three capture groups
(ip, raw MAC as matched, entry type word). -/
def matchWinLine (cs : List Char) : Option (List Char × List Char × List Char) :=
  let r0 := cs.dropWhile isWsChar
  let ip := r0.takeWhile isIpChar
  let r1 := r0.dropWhile isIpChar
  if ip.isEmpty then none else
  let ws1 := r1.takeWhile isWsChar
  let r2 := r1.dropWhile isWsChar
  if ws1.isEmpty then none else
  match matchMacBody isSepChar r2 with
  | none => none
  | some (mac, r3) =>
    let ws2 := r3.takeWhile isWsChar
    let r4 := r3.dropWhile isWsChar
    if ws2.isEmpty then none else
    let w := r4.takeWhile isWordChar
    if w.isEmpty then none else some (ip, mac, w)

/-- One attempt of the Unix regex at the current position (pattern begins with
the literal `(`); returns the two capture groups (ip, raw MAC as matched). -/
def matchUnixAt : List Char → Option (List Char × List Char)
  | '(' :: r0 =>
    let ip := r0.takeWhile isIpChar
    let r1 := r0.dropWhile isIpChar
    if ip.isEmpty then none else
    match r1 with
    | ')' :: r2 =>
      let ws1 := r2.takeWhile isWsChar
      let r3 := r2.dropWhile isWsChar
      if ws1.isEmpty then none else
      match r3 with
      | 'a' :: 't' :: r4 =>
        let ws2 := r4.takeWhile isWsChar
        let r5 := r4.dropWhile isWsChar
        if ws2.isEmpty then none else
        match matchMacBody (fun c => c = ':') r5 with
        | some (mac, _) => some (ip, mac)
        | none => none
      | _ => none
    | _ => none
  | _ => none

/-- Unanchored search: leftmost match of the Unix regex, as JS `match`. -/
def matchUnixLine : List Char → Option (List Char × List Char)
  | [] => none
  | c :: rest =>
    match matchUnixAt (c :: rest) with
    | some r => some r
    | none => matchUnixLine rest

/-- JS `String.prototype.toLowerCase` on a matched substring (ASCII). -/
def lowerStr (cs : List Char) : String := String.mk (cs.map Char.toLower)

/-- One entry of the device list built by `getArpTable`. -/
structure ArpDevice where
  ip : String
  mac : String
  devType : String
  deriving DecidableEq, Repr

/-- Ingest one line of Windows `arp -a` output: on a regex match, lowercase
the MAC, drop broadcast entries, and record `match[3] || "unknown"`. -/
def parseArpLineWin (line : String) : Option ArpDevice :=
  match matchWinLine line.data with
  | none => none
  | some (ip, rawMac, ty) =>
    if lowerStr rawMac ≠ "ff-ff-ff-ff-ff-ff" ∧ lowerStr rawMac ≠ "ff:ff:ff:ff:ff:ff" then
      some ⟨String.mk ip, lowerStr rawMac,
        if String.mk ty = "" then "unknown" else String.mk ty⟩
    else none

/-- Ingest one line of Unix `arp -a` output: on a regex match, lowercase the
MAC and record the entry as `dynamic`; no broadcast filter on this branch. -/
def parseArpLineUnix (line : String) : Option ArpDevice :=
  match matchUnixLine line.data with
  | none => none
  | some (ip, rawMac) => some ⟨String.mk ip, lowerStr rawMac, "dynamic"⟩

/-- Split a character list at every occurrence of `sep`: the semantics of JS
`String.prototype.split` with a one-character separator, as used on `"\n"`
(ARP stdout) and `"."` (dotted-quad local IP). -/
def splitChar (sep : Char) : List Char → List (List Char)
  | [] => [[]]
  | c :: rest =>
    match splitChar sep rest with
    | [] => [[]]
    | h :: t => if c = sep then [] :: h :: t else (c :: h) :: t

/-- JS `s.split(sep)` for a one-character separator. -/
def jsSplit (s : String) (sep : Char) : List String :=
  (splitChar sep s.data).map String.mk

/-- `getArpTable`'s parse of the whole `arp -a` stdout on either platform. -/
def getArpDevices (isWin : Bool) (stdout : String) : List ArpDevice :=
  (jsSplit stdout '\n').filterMap
    (fun line => if isWin then parseArpLineWin line else parseArpLineUnix line)

/-! ## Subnet probing (`probeSubnet` in `src/main/network.js`) -/

/-- The target list `probeSubnet` derives from the local IP: on a string that
does not split into four dot-parts it resolves immediately with no targets;
otherwise the first three parts joined by `.` form the /24 prefix and the
targets are `prefix.1` .. `prefix.254` in order. -/
def probeTargets (localIp : String) : List String :=
  let parts := jsSplit localIp '.'
  if parts.length ≠ 4 then []
  else
    let pfx := String.intercalate "." (parts.take 3)
    (List.range 254).map (fun i => pfx ++ "." ++ toString (i + 1))

/-- The scheduler state of `probeSubnet`'s `next`/`close` loop: `idx` counts
targets already attempted (each target is attempted exactly once, in order),
`active` the sockets currently open, `resolved` the promise state. -/
structure ProbeState where
  idx : ℕ
  active : ℕ
  resolved : Bool
  deriving DecidableEq, Repr

/-- The `while (active < concurrency && idx < targets.length)` loop body of
`next`: open sockets (`min` of the remaining cap headroom and the remaining
targets) until the concurrency cap or the target list is exhausted. -/
def probeFill (conc n : ℕ) (s : ProbeState) : ProbeState :=
  { s with idx := s.idx + min (conc - s.active) (n - s.idx),
           active := s.active + min (conc - s.active) (n - s.idx) }

/-- The resolve check at the end of `next` (`!done` modelled as `= false`). -/
def probeCheckResolve (n : ℕ) (s : ProbeState) : ProbeState :=
  if s.idx ≥ n ∧ s.active = 0 ∧ s.resolved = false then
    { s with resolved := true }
  else s

/-- One call of `next`. -/
def probeNext (conc n : ℕ) (s : ProbeState) : ProbeState :=
  probeCheckResolve n (probeFill conc n s)

/-- A socket `close` event: decrement `active`, then either refill via
`next` or resolve when everything is finished. -/
def probeClose (conc n : ℕ) (s : ProbeState) : ProbeState :=
  if s.idx < n then probeNext conc n ⟨s.idx, s.active - 1, s.resolved⟩
  else if s.active - 1 = 0 ∧ s.resolved = false then ⟨s.idx, s.active - 1, true⟩
  else ⟨s.idx, s.active - 1, s.resolved⟩

/-- The initial `next()` call of `probeSubnet`. -/
def probeInit (conc n : ℕ) : ProbeState := probeNext conc n ⟨0, 0, false⟩

/-- Scheduler states reachable during one probe sweep over `n` targets with
concurrency cap `conc`: the initial `next()` call followed by close events of
open sockets. -/
inductive ProbeReach (conc n : ℕ) : ProbeState → Prop
  | init : ProbeReach conc n (probeInit conc n)
  | close {s : ProbeState} : ProbeReach conc n s → s.active ≠ 0 →
      ProbeReach conc n (probeClose conc n s)

/-! ## Traffic estimator (`src/main/traffic.js`) -/

/-- One value of the in-memory `trafficData` map.  Optional fields model JS
object fields that exist only on some record shapes: connection records carry
process/address info, seeded device records carry hostname/mac. -/
structure TrafficRecord where
  downloadSpeed : ℕ
  uploadSpeed : ℕ
  totalDownload : ℕ
  totalUpload : ℕ
  lastSeen : ℕ
  procName : Option String
  pid : Option String
  localAddr : Option String
  remoteAddr : Option String
  hostname : Option String
  mac : Option String
  status : String
  dataType : String
  deriving DecidableEq, Repr

/-- The `trafficData` map: insertion-ordered key/value pairs keyed by IP. -/
abbrev TrafficTable := List (String × TrafficRecord)

/-- JS `Map.prototype.get`. -/
def tfind (t : TrafficTable) (ip : String) : Option TrafficRecord :=
  t.lookup ip

/-- JS `Map.prototype.set`: replace the value in place when the key is
present, append otherwise. -/
def tset (t : TrafficTable) (ip : String) (r : TrafficRecord) : TrafficTable :=
  if t.any (fun p => p.1 == ip) then
    t.map (fun p => if p.1 == ip then (ip, r) else p)
  else t ++ [(ip, r)]

/-- One `ESTABLISHED` row parsed from netstat by `getActiveConnections`. -/
structure NetConn where
  remoteIP : String
  localAddr : String
  remoteAddr : String
  pid : String
  procName : String
  lastSeen : ℕ
  deriving DecidableEq, Repr

/-- The record `updateTrafficData` stores for an active connection: all
speed/volume fields zero (per-IP attribution needs packet capture), tagged
`connection-only`. -/
def connRecord (c : NetConn) : TrafficRecord :=
  { downloadSpeed := 0, uploadSpeed := 0, totalDownload := 0, totalUpload := 0,
    lastSeen := c.lastSeen, procName := some c.procName, pid := some c.pid,
    localAddr := some c.localAddr, remoteAddr := some c.remoteAddr,
    hostname := none, mac := none,
    status := "active-connection", dataType := "connection-only" }

/-- The connection-ingest loop of `updateTrafficData`:
`trafficData.set(ip, {...})` for each enumerated connection. -/
def mergeConns (conns : List NetConn) (t : TrafficTable) : TrafficTable :=
  conns.foldl (fun acc c => tset acc c.remoteIP (connRecord c)) t

/-- The table after the tick's ingest phase: connection enumeration may have
failed (`none`), in which case the table is untouched. -/
def postIngest (conns : Option (List NetConn)) (t : TrafficTable) : TrafficTable :=
  match conns with
  | some l => mergeConns l t
  | none => t

/-- The eviction sweep: `trafficData.delete(ip)` whenever
`now - data.lastSeen > 30000`; i.e. keep exactly the records within 30 s. -/
def evictOld (now : ℕ) (t : TrafficTable) : TrafficTable :=
  t.filter (fun p => decide (now - p.2.lastSeen ≤ 30000))

/-- One `updateTrafficData` tick.  `ifaceOk` says whether interface-counter
collection succeeded, `conns` is the connection enumeration result (`none` =
threw).  Returns the new table and whether `lastError` was set, which happens
exactly when no real data source succeeded. -/
def updateTick (now : ℕ) (ifaceOk : Bool) (conns : Option (List NetConn))
    (t : TrafficTable) : TrafficTable × Bool :=
  (evictOld now (postIngest conns t), !(ifaceOk || conns.isSome))

/-- The per-record projection `getTrafficData` returns (`|| 0` defaults; every
stored record carries its numeric fields, so they pass through). -/
structure TrafficOut where
  downloadSpeed : ℕ
  uploadSpeed : ℕ
  totalDownload : ℕ
  totalUpload : ℕ
  lastSeen : ℕ
  procName : Option String
  pid : Option String
  status : String
  dataType : String
  deriving DecidableEq, Repr

/-- The field projection inside `getTrafficData`'s result loop. -/
def outOf (r : TrafficRecord) : TrafficOut :=
  ⟨r.downloadSpeed, r.uploadSpeed, r.totalDownload, r.totalUpload,
    r.lastSeen, r.procName, r.pid, r.status, r.dataType⟩

/-- `getTrafficData`: the error payload (`none` here) when `lastError` is set,
else the projected table. -/
def getTrafficData (lastErr : Bool) (t : TrafficTable) :
    Option (List (String × TrafficOut)) :=
  if lastErr then none else some (t.map (fun p => (p.1, outOf p.2)))

/-- A device produced by Device Discovery (`getNetworkInfo`'s `devices`). -/
structure DiscDevice where
  ip : String
  mac : String
  devType : String
  hostname : String
  vendor : String
  deriving DecidableEq, Repr

/-- The record `seedDeviceIPs` creates for a not-yet-tracked device IP. -/
def seedRecord (now : ℕ) (hostname mac : String) : TrafficRecord :=
  { downloadSpeed := 0, uploadSpeed := 0, totalDownload := 0, totalUpload := 0,
    lastSeen := now, procName := none, pid := none, localAddr := none,
    remoteAddr := none, hostname := some hostname, mac := some mac,
    status := "local-device", dataType := "no-traffic-data" }

/-- `seedDeviceIPs`: for each discovered device, create a zeroed
`no-traffic-data` record only when `trafficData` has no entry for its IP. -/
def seedDeviceIPs (now : ℕ) (devices : List DiscDevice) (t : TrafficTable) :
    TrafficTable :=
  devices.foldl
    (fun acc d =>
      if (tfind acc d.ip).isSome then acc
      else acc ++ [(d.ip, seedRecord now d.hostname d.mac)])
    t

/-- Traffic tables reachable in the process: empty at module load, then
mutated only by estimator ticks and device seeding. -/
inductive TableReach : TrafficTable → Prop
  | empty : TableReach []
  | tick {t : TrafficTable} (now : ℕ) (ifaceOk : Bool)
      (conns : Option (List NetConn)) :
      TableReach t → TableReach (updateTick now ifaceOk conns t).1
  | seed {t : TrafficTable} (now : ℕ) (devices : List DiscDevice) :
      TableReach t → TableReach (seedDeviceIPs now devices t)

/-! ## Public-IP geolocation, vendor lookup and the network-info aggregate
(`src/main/network.js`) -/

/-- Outcome of one HTTPS request: an `error` event, a `timeout` event, or a
response with status code and accumulated body. -/
inductive HttpOutcome (α : Type)
  | reqError
  | timeout
  | ok (status : ℕ) (body : α)
  deriving DecidableEq, Repr

/-- The fields `getPublicIP` reads from the parsed `ipinfo.io` JSON; `none`
models an absent field (JS `undefined`). -/
structure IpInfoFields where
  ip : Option String
  city : Option String
  region : Option String
  country : Option String
  org : Option String
  timezone : Option String
  deriving DecidableEq, Repr

/-- JS `value || default` for an optional string (both `undefined` and the
empty string are falsy). -/
def orDefault (v : Option String) (d : String) : String :=
  match v with
  | some s => if s = "" then d else s
  | none => d

/-- The composed public-IP/geolocation record. -/
structure PublicInfo where
  ip : String
  city : String
  region : String
  country : String
  org : String
  timezone : String
  deriving DecidableEq, Repr

/-- The record every failure path of `getPublicIP` resolves with. -/
def defaultPublicInfo : PublicInfo := ⟨"Unknown", "", "", "", "", ""⟩

/-- The all-absent parse result, i.e. a response body of `{}`. -/
def emptyIpInfo : IpInfoFields := ⟨none, none, none, none, none, none⟩

/-- `getPublicIP`: the body is JSON-parsed (`none` models a `JSON.parse` throw
caught by the `catch` block); request error and timeout events resolve the
default record; no path rejects the promise. -/
def getPublicIP (resp : HttpOutcome (Option IpInfoFields)) : PublicInfo :=
  match resp with
  | .reqError => defaultPublicInfo
  | .timeout => defaultPublicInfo
  | .ok _ parsed =>
    match parsed with
    | none => defaultPublicInfo
    | some info =>
      { ip := orDefault info.ip "Unknown", city := orDefault info.city "",
        region := orDefault info.region "", country := orDefault info.country "",
        org := orDefault info.org "", timezone := orDefault info.timezone "" }

/-- Does `cs` start with `pat`? -/
def startsWithChars : List Char → List Char → Bool
  | _, [] => true
  | [], _ :: _ => false
  | c :: cs, p :: ps => c = p && startsWithChars cs ps

/-- JS `hay.includes(pat)`: does `pat` occur as a contiguous substring? -/
def containsSub (pat : List Char) : List Char → Bool
  | [] => startsWithChars [] pat
  | c :: t => startsWithChars (c :: t) pat || containsSub pat t

/-- JS `String.prototype.trim` (ASCII whitespace). -/
def trimChars (cs : List Char) : List Char :=
  ((cs.dropWhile isWsChar).reverse.dropWhile isWsChar).reverse

/-- `getVendorHint`: resolve the trimmed body on a 200 response whose
non-empty body does not contain `Not Found`; resolve `""` on any other
response, request error, or timeout — never reject. -/
def getVendorHint (resp : HttpOutcome String) : String :=
  match resp with
  | .reqError => ""
  | .timeout => ""
  | .ok status body =>
    if status = 200 ∧ body ≠ "" ∧ containsSub "Not Found".data body.data = false
    then String.mk (trimChars body.data)
    else ""

/-- The `seen` set of `addVendorInfo` (a JS `Set` iterates in insertion
order): first occurrences of device MACs, capped at 20 entries. -/
def vendorQueue (devices : List DiscDevice) : List String :=
  devices.foldl
    (fun seen d => if d.mac ∈ seen ∨ 20 ≤ seen.length then seen else seen ++ [d.mac])
    []

/-- The sequential request schedule of the lookup loop: each queued MAC is one
request followed by the fixed `setTimeout(r, 120)` delay. -/
def vendorSchedule (devices : List DiscDevice) : List (String × ℕ) :=
  (vendorQueue devices).map (fun m => (m, 120))

/-- `cleanMac` inside `getVendorHint`: separators stripped, first six hex
digits, uppercased — the OUI prefix of a MAC. -/
def macOui (mac : String) : String :=
  String.mk (((mac.data.filter (fun c => !isSepChar c)).take 6).map Char.toUpper)

/-- The `vendorMap` the sequential loop builds: one lookup per queued MAC. -/
def vendorMap (fetch : String → HttpOutcome String) (devices : List DiscDevice) :
    List (String × String) :=
  (vendorQueue devices).map (fun m => (m, getVendorHint (fetch m)))

/-- `addVendorInfo`: annotate every device with `vendorMap[d.mac] || ""`. -/
def addVendorInfo (fetch : String → HttpOutcome String)
    (devices : List DiscDevice) : List DiscDevice :=
  devices.map (fun d =>
    { d with vendor := orDefault ((vendorMap fetch devices).lookup d.mac) "" })

/-- `resolveHostnames`: per-device reverse DNS; an error or empty result list
yields an empty hostname and never aborts the batch. -/
def resolveHostnames (dns : String → Option (List String))
    (devices : List DiscDevice) : List DiscDevice :=
  devices.map (fun d =>
    { d with hostname :=
        match dns d.ip with
        | some (h :: _) => h
        | _ => "" })

/-- An ARP device before hostname/vendor annotation. -/
def toDisc (a : ArpDevice) : DiscDevice := ⟨a.ip, a.mac, a.devType, "", ""⟩

/-- One non-internal IPv4 interface from `os.networkInterfaces()`. -/
structure LocalIface where
  name : String
  ip : String
  mac : String
  netmask : String
  deriving DecidableEq, Repr

/-- `getSystemInfo()`'s point-in-time host stats. -/
structure SysInfo where
  hostname : String
  platform : String
  arch : String
  uptime : ℕ
  totalMemory : ℕ
  freeMemory : ℕ
  cpuModel : String
  cpuCores : ℕ
  deriving DecidableEq, Repr

/-- The environment `getNetworkInfo` runs against: every external interaction
is a parameter. -/
structure NetEnv where
  pubResp : HttpOutcome (Option IpInfoFields)
  ifaces : List LocalIface
  sys : SysInfo
  isWin : Bool
  arpOut : Option String
  dns : String → Option (List String)
  vendorFetch : String → HttpOutcome String

/-- The composed snapshot `getNetworkInfo` resolves with. -/
structure NetworkSnapshot where
  publicInfo : PublicInfo
  localIfaces : List LocalIface
  system : SysInfo
  devices : List DiscDevice
  deriving DecidableEq, Repr

/-- `getArpTable` resolves `[]` on exec error or empty stdout, else parses. -/
def getArpTableModel (isWin : Bool) (arpOut : Option String) : List ArpDevice :=
  match arpOut with
  | none => []
  | some out => getArpDevices isWin out

/-- `getNetworkInfo`: the composition of the sub-fetches.  Every awaited
sub-promise resolves (each installs error/timeout handlers that resolve a
default), so the only rejection channel of the async function is unused:
the result is `.ok` for every environment. -/
def getNetworkInfo (env : NetEnv) : Except String NetworkSnapshot :=
  .ok { publicInfo := getPublicIP env.pubResp,
        localIfaces := env.ifaces,
        system := env.sys,
        devices := addVendorInfo env.vendorFetch
          (resolveHostnames env.dns
            ((getArpTableModel env.isWin env.arpOut).map toDisc)) }

/-- A concrete stale connection record (for witnesses). -/
def demoStale : TrafficRecord :=
  { downloadSpeed := 0, uploadSpeed := 0, totalDownload := 0, totalUpload := 0,
    lastSeen := 5000, procName := some "chrome.exe", pid := some "42",
    localAddr := some "192.168.1.2:5555", remoteAddr := some "10.0.0.9:443",
    hostname := none, mac := none,
    status := "active-connection", dataType := "connection-only" }

/-- A concrete fresh connection record (for witnesses). -/
def demoFresh : TrafficRecord :=
  { downloadSpeed := 0, uploadSpeed := 0, totalDownload := 0, totalUpload := 0,
    lastSeen := 39000, procName := some "node.exe", pid := some "43",
    localAddr := some "192.168.1.2:5556", remoteAddr := some "10.0.0.7:443",
    hostname := none, mac := none,
    status := "active-connection", dataType := "connection-only" }

/-- A concrete two-entry traffic table (for witnesses). -/
def demoTable : TrafficTable := [("10.0.0.9", demoStale), ("10.0.0.7", demoFresh)]

/-- A concrete enumerated connection (for witnesses). -/
def demoConn : NetConn :=
  ⟨"1.2.3.4", "192.168.1.2:60000", "1.2.3.4:443", "77", "node.exe", 1000⟩

/-- A concrete discovered device (for witnesses). -/
def demoDevice : DiscDevice :=
  ⟨"192.168.1.9", "aa:bb:cc:dd:ee:ff", "dynamic", "printer.local", ""⟩

end NetPulse

namespace NetPulse

/-! ## Theorems -/

/-- `Char.toLower` never yields an uppercase letter. -/
theorem char_toLower_not_upper (c : Char) : (Char.toLower c).isUpper = false := by
  unfold Char.toLower Char.isUpper
  simp only []
  by_cases h : c.toNat ≥ 65 ∧ c.toNat ≤ 90
  · rw [if_pos h]
    obtain ⟨h1, h2⟩ := h
    have hvalid : Nat.isValidChar (Char.toNat c + 32) := by
      left
      omega
    unfold Char.ofNat
    rw [dif_pos hvalid]
    unfold Char.ofNatAux
    simp only [ge_iff_le, Bool.and_eq_false_iff, decide_eq_false_iff_not, not_le]
    right
    simp [UInt32.le_def, BitVec.le_def]
    omega
  · rw [if_neg h]
    simp only [ge_iff_le, Bool.and_eq_false_iff, decide_eq_false_iff_not, not_le]
    simp only [Char.toNat, not_and, not_le] at h
    by_cases h65 : (65 : UInt32) ≤ c.val
    · right
      have := h (by simpa [UInt32.le_def, BitVec.le_def, UInt32.toNat] using h65)
      simpa [UInt32.lt_def, BitVec.lt_def, UInt32.toNat] using this
    · left
      exact h65

/-- In every reachable engine state the run count is tied to the flag. -/
theorem engineReach_runs_eq_flag {s : EngineState} (h : EngineReach s) :
    s.activeRuns = (if s.running then 1 else 0) := by
  induction h with
  | init => rfl
  | call _ ih =>
    unfold tryStart
    split
    · simp_all
    · simp_all
  | complete _ hne ih =>
    unfold finishRun
    split at ih <;> simp_all

/-- C1 (counterexample): with successful attempts `[10, 20, 30, 40]` the code
resolves `30.0` — the upper middle element of the sorted list — not the
true median `25.0` the claim states. -/
theorem pingFinish_even_counterexample :
    pingFinish [10, 20, 30, 40] = .ok 30 ∧
      pingFinish [10, 20, 30, 40] ≠ .ok 25 := by
  constructor
  · norm_num [pingFinish, round1, List.insertionSort, List.orderedInsert]
  · norm_num [pingFinish, round1, List.insertionSort, List.orderedInsert]

/-- C1 (amended): whenever at least one ping attempt succeeds, the resolved
value is the element at index `⌊n/2⌋` of the ascending sort of the successful
round-trip times (the true median for odd counts, the upper of the two middle
elements for even counts), rounded to one decimal place. -/
theorem pingFinish_sorted_middle (results : List ℚ) (h : results ≠ []) :
    ∃ sorted : List ℚ, sorted.Perm results ∧ sorted.Sorted (· ≤ ·) ∧
      pingFinish results = .ok (round1 (sorted.getD (results.length / 2) 0)) := by
  refine ⟨List.insertionSort (· ≤ ·) results, List.perm_insertionSort _ _,
    List.sorted_insertionSort _ _, ?_⟩
  unfold pingFinish
  rw [if_neg (by simpa using List.length_eq_zero.not.mpr h)]
  simp [List.length_insertionSort]

/-- Witness for `pingFinish_sorted_middle` at the concrete run
`[47.6, 12.1, 33.3]`. -/
theorem pingFinish_sorted_middle_witness :
    ([47.6, 12.1, 33.3] : List ℚ) ≠ [] ∧
      ∃ sorted : List ℚ, sorted.Perm [47.6, 12.1, 33.3] ∧
        sorted.Sorted (· ≤ ·) ∧
        pingFinish [47.6, 12.1, 33.3] =
          .ok (round1 (sorted.getD (([47.6, 12.1, 33.3] : List ℚ).length / 2) 0)) :=
  ⟨by simp, pingFinish_sorted_middle [47.6, 12.1, 33.3] (by simp)⟩

/-- C3: each stage fails with its typed error exactly when it measured
nothing — ping rejects with `PingFailed` iff zero attempts succeeded, and
download/upload reject with their typed errors whenever zero bytes were
transferred, so a zero-byte stage never resolves to a zero-Mbps success. -/
theorem stage_zero_measurement_fails :
    (∀ results : List ℚ, pingFinish results = .error .pingFailed ↔ results = []) ∧
    (∀ (e : ℚ) (b : ℕ), b = 0 → downloadFinish e b = .error .downloadFailed) ∧
    (∀ (e : ℚ) (b : ℕ), b = 0 → uploadFinish e b = .error .uploadFailed) ∧
    (∀ (e : ℚ) (b : ℕ) (v : ℚ), downloadFinish e b = .ok v → b ≠ 0) ∧
    (∀ (e : ℚ) (b : ℕ) (v : ℚ), uploadFinish e b = .ok v → b ≠ 0) := by
  refine ⟨fun results => ?_, fun e b hb => ?_, fun e b hb => ?_,
    fun e b v hv => ?_, fun e b v hv => ?_⟩
  · constructor
    · intro h
      by_cases hlen : results.length = 0
      · exact List.length_eq_zero.mp hlen
      · simp [pingFinish, hlen] at h
    · intro h
      subst h
      rfl
  · simp [downloadFinish, hb]
  · simp [uploadFinish, hb]
  · intro hb
    simp [downloadFinish, hb] at hv
  · intro hb
    simp [uploadFinish, hb] at hv

/-- Witness for `stage_zero_measurement_fails` at concrete inputs. -/
theorem stage_zero_measurement_fails_witness :
    pingFinish [] = .error .pingFailed ∧
      downloadFinish 5 0 = .error .downloadFailed ∧
      uploadFinish 7 0 = .error .uploadFailed :=
  ⟨(stage_zero_measurement_fails.1 []).mpr rfl,
    stage_zero_measurement_fails.2.1 5 0 rfl,
    stage_zero_measurement_fails.2.2.1 7 0 rfl⟩

/-- C2: at most one speed test runs concurrently — in every reachable state at
most one run is active; a handler call while the flag is set returns the
`AlreadyRunning` error and changes nothing (no second run starts); and after
any run settles the flag is clear, so the next call starts a run. -/
theorem speedtest_single_flight :
    (∀ s : EngineState, EngineReach s → s.activeRuns ≤ 1) ∧
    (∀ s : EngineState, s.running = true → tryStart s = (s, .rejected)) ∧
    (∀ s : EngineState, (finishRun s).running = false ∧
      (tryStart (finishRun s)).2 = .started) := by
  refine ⟨fun s hs => ?_, fun s hs => ?_, fun s => ?_⟩
  · rw [engineReach_runs_eq_flag hs]
    split <;> simp
  · simp [tryStart, hs]
  · simp [tryStart, finishRun]

/-- Witness for `speedtest_single_flight` at concrete states. -/
theorem speedtest_single_flight_witness :
    (⟨false, 0⟩ : EngineState).activeRuns ≤ 1 ∧
      tryStart ⟨true, 1⟩ = (⟨true, 1⟩, .rejected) ∧
      (tryStart (finishRun ⟨true, 1⟩)).2 = .started :=
  ⟨speedtest_single_flight.1 ⟨false, 0⟩ .init,
    speedtest_single_flight.2.1 ⟨true, 1⟩ rfl,
    (speedtest_single_flight.2.2 ⟨true, 1⟩).2⟩

end NetPulse

namespace NetPulse

/-- C4 (counterexample): on the Unix branch a broadcast ARP entry is not
excluded — the line `? (192.168.1.255) at ff:ff:ff:ff:ff:ff on en0` yields a
device record carrying the broadcast MAC in the device list. -/
theorem arp_unix_broadcast_counterexample :
    getArpDevices false "? (192.168.1.255) at ff:ff:ff:ff:ff:ff on en0" =
      [⟨"192.168.1.255", "ff:ff:ff:ff:ff:ff", "dynamic"⟩] := by decide

/-- C4 (amended): for every ingested ARP line the stored MAC is the lowercase
form of the matched MAC string (and contains no uppercase letter); broadcast
MACs (colon and hyphen variants) are excluded on the Windows branch, but the
Unix branch performs no broadcast filtering. -/
theorem arp_mac_lowercase_and_broadcast (line : String) (d : ArpDevice) :
    (parseArpLineWin line = some d →
      (∃ ip raw ty, matchWinLine line.data = some (ip, raw, ty) ∧
        d.mac = lowerStr raw) ∧
      (∀ c ∈ d.mac.data, c.isUpper = false) ∧
      d.mac ≠ "ff-ff-ff-ff-ff-ff" ∧ d.mac ≠ "ff:ff:ff:ff:ff:ff") ∧
    (parseArpLineUnix line = some d →
      (∃ ip raw, matchUnixLine line.data = some (ip, raw) ∧
        d.mac = lowerStr raw) ∧
      (∀ c ∈ d.mac.data, c.isUpper = false)) := by
  constructor
  · intro h
    cases hm : matchWinLine line.data with
    | none => simp [parseArpLineWin, hm] at h
    | some g =>
      obtain ⟨ip, raw, ty⟩ := g
      simp only [parseArpLineWin, hm] at h
      by_cases hb : lowerStr raw ≠ "ff-ff-ff-ff-ff-ff" ∧ lowerStr raw ≠ "ff:ff:ff:ff:ff:ff"
      · rw [if_pos hb] at h
        obtain rfl : (⟨String.mk ip, lowerStr raw,
            if String.mk ty = "" then "unknown" else String.mk ty⟩ : ArpDevice) = d :=
          Option.some_injective _ h
        refine ⟨⟨ip, raw, ty, rfl, rfl⟩, ?_, hb.1, hb.2⟩
        intro c hc
        obtain ⟨c', _, rfl⟩ := List.mem_map.mp hc
        exact char_toLower_not_upper c'
      · rw [if_neg hb] at h
        cases h
  · intro h
    cases hm : matchUnixLine line.data with
    | none => simp [parseArpLineUnix, hm] at h
    | some g =>
      obtain ⟨ip, raw⟩ := g
      simp only [parseArpLineUnix, hm] at h
      obtain rfl : (⟨String.mk ip, lowerStr raw, "dynamic"⟩ : ArpDevice) = d :=
        Option.some_injective _ (by simpa using h)
      refine ⟨⟨ip, raw, rfl, rfl⟩, ?_⟩
      intro c hc
      obtain ⟨c', _, rfl⟩ := List.mem_map.mp hc
      exact char_toLower_not_upper c'

/-- Witness for `arp_mac_lowercase_and_broadcast` on a concrete Windows line
with mixed-case MAC. -/
theorem arp_mac_lowercase_and_broadcast_witness :
    parseArpLineWin "  192.168.1.7    00-AA-bb-CC-dd-ee     dynamic" =
        some ⟨"192.168.1.7", "00-aa-bb-cc-dd-ee", "dynamic"⟩ ∧
      (∀ c ∈ (("00-aa-bb-cc-dd-ee" : String)).data, c.isUpper = false) ∧
      ("00-aa-bb-cc-dd-ee" : String) ≠ "ff-ff-ff-ff-ff-ff" :=
  ⟨by decide,
    ((arp_mac_lowercase_and_broadcast "  192.168.1.7    00-AA-bb-CC-dd-ee     dynamic"
      ⟨"192.168.1.7", "00-aa-bb-cc-dd-ee", "dynamic"⟩).1 (by decide)).2.1,
    ((arp_mac_lowercase_and_broadcast "  192.168.1.7    00-AA-bb-CC-dd-ee     dynamic"
      ⟨"192.168.1.7", "00-aa-bb-cc-dd-ee", "dynamic"⟩).1 (by decide)).2.2.1⟩

/-- One `next()` call preserves the probe scheduler invariant. -/
theorem probeNext_inv {conc n : ℕ} {s : ProbeState}
    (ha : s.active ≤ conc) (hi : s.idx ≤ n)
    (hres : s.resolved = true → s.idx = n ∧ s.active = 0) :
    (probeNext conc n s).active ≤ conc ∧ (probeNext conc n s).idx ≤ n ∧
      ((probeNext conc n s).resolved = true →
        (probeNext conc n s).idx = n ∧ (probeNext conc n s).active = 0) := by
  have h1 := Nat.min_le_left (conc - s.active) (n - s.idx)
  have h2 := Nat.min_le_right (conc - s.active) (n - s.idx)
  unfold probeNext probeCheckResolve probeFill
  split
  · next hcond =>
    obtain ⟨hc1, hc2, -⟩ := hcond
    dsimp only at hc1 hc2 ⊢
    exact ⟨by omega, by omega, fun _ => ⟨by omega, by omega⟩⟩
  · next hcond =>
    dsimp only
    refine ⟨by omega, by omega, fun hr => ?_⟩
    obtain ⟨hn, hz⟩ := hres hr
    omega

/-- The probe scheduler invariant: at most `conc` sockets are ever in flight,
no more than `n` targets are attempted, and the promise resolves only once
every target has been attempted and every socket has closed. -/
theorem probeReach_invariant {conc n : ℕ} {s : ProbeState}
    (h : ProbeReach conc n s) :
    s.active ≤ conc ∧ s.idx ≤ n ∧
      (s.resolved = true → s.idx = n ∧ s.active = 0) := by
  induction h with
  | init =>
    exact probeNext_inv (Nat.zero_le _) (Nat.zero_le _) (by simp)
  | close hr hne ih =>
    obtain ⟨iha, ihi, ihres⟩ := ih
    rename_i t
    unfold probeClose
    split
    · next hlt =>
      refine probeNext_inv (by dsimp only; omega) (by dsimp only; omega)
        (fun hresolved => ?_)
      dsimp only at hresolved ⊢
      obtain ⟨hn, hz⟩ := ihres hresolved
      omega
    · next hge =>
      split
      · next hcond =>
        dsimp only
        obtain ⟨hz, -⟩ := hcond
        exact ⟨by omega, by omega, fun _ => ⟨by omega, by omega⟩⟩
      · next hcond =>
        dsimp only
        refine ⟨by omega, by omega, fun hresolved => ?_⟩
        obtain ⟨hn, hz⟩ := ihres hresolved
        omega

/-- C5: for a well-formed dotted-quad local IP the probe sweep targets exactly
the 254 addresses `pfx.1` .. `pfx.254` of its /24 prefix and nothing else, at
most 30 connection attempts are in flight at any time, and the sweep resolves
only after every target has been attempted and all sockets have closed. -/
theorem probe_subnet_targets (ip : String)
    (h : (jsSplit ip '.').length = 4) :
    (probeTargets ip).length = 254 ∧
    (∀ t ∈ probeTargets ip, ∃ k, 1 ≤ k ∧ k ≤ 254 ∧
        t = String.intercalate "." ((jsSplit ip '.').take 3) ++ "." ++ toString k) ∧
    (∀ k : ℕ, 1 ≤ k → k ≤ 254 →
        String.intercalate "." ((jsSplit ip '.').take 3) ++ "." ++ toString k ∈
          probeTargets ip) ∧
    (∀ s, ProbeReach 30 (probeTargets ip).length s →
        s.active ≤ 30 ∧
          (s.resolved = true → s.idx = (probeTargets ip).length ∧ s.active = 0)) := by
  have hne : ¬(jsSplit ip '.').length ≠ 4 := by omega
  refine ⟨?_, ?_, ?_, ?_⟩
  · unfold probeTargets
    rw [if_neg hne]
    simp
  · intro t ht
    unfold probeTargets at ht
    rw [if_neg hne] at ht
    obtain ⟨i, hi, rfl⟩ := List.mem_map.mp ht
    exact ⟨i + 1, by omega, by have := List.mem_range.mp hi; omega, rfl⟩
  · intro k hk1 hk2
    unfold probeTargets
    rw [if_neg hne]
    refine List.mem_map.mpr ⟨k - 1, List.mem_range.mpr (by omega), ?_⟩
    have hk : k - 1 + 1 = k := by omega
    rw [hk]
  · intro s hs
    have := probeReach_invariant hs
    exact ⟨this.1, this.2.2⟩

/-- Witness for `probe_subnet_targets` at the local IP `192.168.1.50`. -/
theorem probe_subnet_targets_witness :
    (probeTargets "192.168.1.50").length = 254 ∧
      "192.168.1.1" ∈ probeTargets "192.168.1.50" :=
  ⟨(probe_subnet_targets "192.168.1.50" (by decide)).1,
    by
      have hmem := (probe_subnet_targets "192.168.1.50" (by decide)).2.2.1 1
        le_rfl (by norm_num)
      exact hmem⟩

/-- `tfind` at a cons cell. -/
theorem tfind_cons (k : String) (v : TrafficRecord) (t : TrafficTable)
    (ip : String) : tfind ((k, v) :: t) ip = if ip = k then some v else tfind t ip := by
  unfold tfind
  rw [List.lookup_cons]
  by_cases h : ip = k
  · simp [h]
  · have hb : (ip == k) = false := by simpa using h
    simp [h, hb]

/-- `tfind` across an append. -/
theorem tfind_append (t1 t2 : TrafficTable) (ip : String) :
    tfind (t1 ++ t2) ip = (tfind t1 ip).or (tfind t2 ip) :=
  List.lookup_append

/-- In-place replacement: the replaced key is found with its new value. -/
theorem lookup_map_replace (t : TrafficTable) (ip : String) (r : TrafficRecord)
    (hany : t.any (fun p => p.1 == ip) = true) :
    tfind (t.map (fun p => if p.1 == ip then (ip, r) else p)) ip = some r := by
  induction t with
  | nil => simp at hany
  | cons p t ih =>
    obtain ⟨k, v⟩ := p
    simp only [List.any_cons, Bool.or_eq_true, beq_iff_eq] at hany
    by_cases hk : k = ip
    · subst hk
      simp [tfind_cons]
    · have hany' : t.any (fun p => p.1 == ip) = true := by
        rcases hany with h | h
        · exact absurd h hk
        · exact h
      simp only [List.map_cons]
      rw [show (if (k, v).1 == ip then (ip, r) else (k, v)) = (k, v) by simp [hk]]
      rw [tfind_cons, if_neg (fun h => hk h.symm)]
      exact ih hany'

/-- In-place replacement leaves every other key's lookup unchanged. -/
theorem lookup_map_replace_ne (t : TrafficTable) (ip ip' : String)
    (r : TrafficRecord) (hne : ip' ≠ ip) :
    tfind (t.map (fun p => if p.1 == ip then (ip, r) else p)) ip' = tfind t ip' := by
  induction t with
  | nil => rfl
  | cons p t ih =>
    obtain ⟨k, v⟩ := p
    by_cases hk : k = ip
    · subst hk
      simp only [List.map_cons, beq_self_eq_true, if_pos]
      rw [tfind_cons, tfind_cons, if_neg hne, if_neg hne]
      exact ih
    · simp only [List.map_cons]
      rw [show (if (k, v).1 == ip then (ip, r) else (k, v)) = (k, v) by simp [hk]]
      rw [tfind_cons, tfind_cons]
      by_cases h : ip' = k
      · simp [h]
      · rw [if_neg h, if_neg h]
        exact ih

/-- `Map.set` then `Map.get` at the same key yields the value set. -/
theorem tfind_tset_self (t : TrafficTable) (ip : String) (r : TrafficRecord) :
    tfind (tset t ip r) ip = some r := by
  unfold tset
  split
  · next hany => exact lookup_map_replace t ip r hany
  · next hany =>
    rw [tfind_append]
    have hnone : tfind t ip = none := by
      unfold tfind
      rw [List.lookup_eq_none_iff]
      intro p hp
      simp only [List.any_eq_true, beq_iff_eq] at hany
      simp only [bne_iff_ne, ne_eq]
      exact fun h => hany ⟨p, hp, h.symm⟩
    rw [hnone]
    simp [tfind_cons]

/-- `Map.set` leaves every other key's lookup unchanged. -/
theorem tfind_tset_ne (t : TrafficTable) (ip ip' : String) (r : TrafficRecord)
    (hne : ip' ≠ ip) : tfind (tset t ip r) ip' = tfind t ip' := by
  unfold tset
  split
  · exact lookup_map_replace_ne t ip ip' r hne
  · rw [tfind_append]
    rw [show tfind [(ip, r)] ip' = none by rw [tfind_cons, if_neg hne]; rfl]
    cases tfind t ip' <;> rfl

/-- Every entry of `tset t ip r` is an old entry or the pair just set. -/
theorem mem_tset (t : TrafficTable) (ip : String) (r : TrafficRecord)
    (p : String × TrafficRecord) (hp : p ∈ tset t ip r) :
    p ∈ t ∨ p = (ip, r) := by
  unfold tset at hp
  split at hp
  · obtain ⟨q, hq, hfq⟩ := List.mem_map.mp hp
    by_cases h : q.1 == ip
    · right
      rw [← hfq, if_pos h]
    · left
      rw [← hfq, if_neg (by simpa using h)]
      exact hq
  · rcases List.mem_append.mp hp with h | h
    · exact Or.inl h
    · exact Or.inr (List.mem_singleton.mp h)

/-- Every entry after the connection-ingest loop is an old entry or a
connection record. -/
theorem mem_mergeConns (conns : List NetConn) (t : TrafficTable)
    (p : String × TrafficRecord) (hp : p ∈ mergeConns conns t) :
    p ∈ t ∨ ∃ c ∈ conns, p = (c.remoteIP, connRecord c) := by
  induction conns generalizing t with
  | nil => exact Or.inl hp
  | cons c cs ih =>
    rcases ih (tset t c.remoteIP (connRecord c)) hp with h | ⟨c', hc', rfl⟩
    · rcases mem_tset _ _ _ _ h with h' | h'
      · exact Or.inl h'
      · exact Or.inr ⟨c, List.mem_cons_self .., by rw [h']⟩
    · exact Or.inr ⟨c', List.mem_cons_of_mem _ hc', rfl⟩

/-- Every entry after seeding is an old entry or a seeded device record. -/
theorem mem_seedDeviceIPs (now : ℕ) (devices : List DiscDevice)
    (t : TrafficTable) (p : String × TrafficRecord)
    (hp : p ∈ seedDeviceIPs now devices t) :
    p ∈ t ∨ ∃ d ∈ devices, p = (d.ip, seedRecord now d.hostname d.mac) := by
  induction devices generalizing t with
  | nil => exact Or.inl hp
  | cons d ds ih =>
    unfold seedDeviceIPs at hp
    rw [List.foldl_cons] at hp
    rcases ih _ hp with h | ⟨d', hd', rfl⟩
    · split at h
      · exact Or.inl h
      · rcases List.mem_append.mp h with h' | h'
        · exact Or.inl h'
        · exact Or.inr ⟨d, List.mem_cons_self ..,
            by rw [List.mem_singleton.mp h']⟩
    · exact Or.inr ⟨d', List.mem_cons_of_mem _ hd', rfl⟩

/-- After the ingest loop a key is either untouched or carries the record of
one of the ingested connections with that remote IP. -/
theorem tfind_mergeConns (cs : List NetConn) (t : TrafficTable) (ip : String) :
    tfind (mergeConns cs t) ip = tfind t ip ∨
      ∃ c' ∈ cs, c'.remoteIP = ip ∧
        tfind (mergeConns cs t) ip = some (connRecord c') := by
  induction cs generalizing t with
  | nil => exact Or.inl rfl
  | cons c0 cs ih =>
    rcases ih (tset t c0.remoteIP (connRecord c0)) with h | ⟨c', hc', hip, heq⟩
    · by_cases hip0 : c0.remoteIP = ip
      · refine Or.inr ⟨c0, List.mem_cons_self .., hip0, ?_⟩
        rw [show mergeConns (c0 :: cs) t = mergeConns cs (tset t c0.remoteIP (connRecord c0)) from rfl]
        rw [h, ← hip0]
        exact tfind_tset_self t c0.remoteIP (connRecord c0)
      · refine Or.inl ?_
        rw [show mergeConns (c0 :: cs) t = mergeConns cs (tset t c0.remoteIP (connRecord c0)) from rfl]
        rw [h]
        exact tfind_tset_ne t c0.remoteIP ip (connRecord c0) (fun he => hip0 he.symm)
    · exact Or.inr ⟨c', List.mem_cons_of_mem _ hc', hip, heq⟩

/-- Every ingested connection's remote IP is mapped, after the loop, to the
connection record of some ingested connection with that remote IP. -/
theorem tfind_mergeConns_covers (cs : List NetConn) (t : TrafficTable)
    (c : NetConn) (hc : c ∈ cs) :
    ∃ c' ∈ cs, c'.remoteIP = c.remoteIP ∧
      tfind (mergeConns cs t) c.remoteIP = some (connRecord c') := by
  induction cs generalizing t with
  | nil => cases hc
  | cons c0 cs ih =>
    rcases List.mem_cons.mp hc with rfl | hmem
    · rcases tfind_mergeConns cs (tset t c.remoteIP (connRecord c)) c.remoteIP with
        h | ⟨c', hc', hip, heq⟩
      · exact ⟨c, List.mem_cons_self .., rfl,
          h.trans (tfind_tset_self t c.remoteIP (connRecord c))⟩
      · exact ⟨c', List.mem_cons_of_mem _ hc', hip, heq⟩
    · obtain ⟨c', hc', hip, heq⟩ := ih (tset t c0.remoteIP (connRecord c0)) hmem
      exact ⟨c', List.mem_cons_of_mem _ hc', hip, heq⟩

/-- Membership in the eviction sweep's output. -/
theorem mem_evictOld_iff (now : ℕ) (t : TrafficTable)
    (p : String × TrafficRecord) :
    p ∈ evictOld now t ↔ p ∈ t ∧ now - p.2.lastSeen ≤ 30000 := by
  simp [evictOld, List.mem_filter]

/-- Lookups of records within the threshold survive the eviction sweep. -/
theorem tfind_evictOld (now : ℕ) (t : TrafficTable) (ip : String)
    (r : TrafficRecord) (h : tfind t ip = some r)
    (hkeep : now - r.lastSeen ≤ 30000) :
    tfind (evictOld now t) ip = some r := by
  induction t with
  | nil => cases h
  | cons p t ih =>
    obtain ⟨k, v⟩ := p
    rw [tfind_cons] at h
    by_cases hk : ip = k
    · rw [if_pos hk] at h
      obtain rfl : v = r := Option.some_injective _ h
      unfold evictOld
      rw [List.filter_cons, if_pos (by simpa using hkeep)]
      rw [tfind_cons, if_pos hk]
    · rw [if_neg hk] at h
      unfold evictOld
      rw [List.filter_cons]
      split
      · rw [tfind_cons, if_neg hk]
        exact ih h
      · exact ih h

/-- Seeding preserves the lookup of every already-present key. -/
theorem tfind_seed_keeps (now : ℕ) (ds : List DiscDevice) (t : TrafficTable)
    (ip : String) (r : TrafficRecord) (h : tfind t ip = some r) :
    tfind (seedDeviceIPs now ds t) ip = some r := by
  induction ds generalizing t with
  | nil => exact h
  | cons d ds ih =>
    unfold seedDeviceIPs
    rw [List.foldl_cons]
    split
    · exact ih t h
    · refine ih _ ?_
      rw [tfind_append, h]
      rfl

/-- A key created by seeding carries the seed record of one of the devices
with that IP. -/
theorem tfind_seed_new (now : ℕ) (ds : List DiscDevice) (t : TrafficTable)
    (ip : String) (h : tfind t ip = none) (r : TrafficRecord)
    (hr : tfind (seedDeviceIPs now ds t) ip = some r) :
    ∃ d ∈ ds, d.ip = ip ∧ r = seedRecord now d.hostname d.mac := by
  induction ds generalizing t with
  | nil =>
    rw [show seedDeviceIPs now [] t = t from rfl, h] at hr
    cases hr
  | cons d ds ih =>
    unfold seedDeviceIPs at hr
    rw [List.foldl_cons] at hr
    split at hr
    · obtain ⟨d', hd', hip, hrec⟩ := ih t h hr
      exact ⟨d', List.mem_cons_of_mem _ hd', hip, hrec⟩
    · by_cases hip : d.ip = ip
      · subst hip
        have hfound : tfind (t ++ [(d.ip, seedRecord now d.hostname d.mac)]) d.ip =
            some (seedRecord now d.hostname d.mac) := by
          rw [tfind_append, h]
          rw [show tfind [(d.ip, seedRecord now d.hostname d.mac)] d.ip =
            some (seedRecord now d.hostname d.mac) by rw [tfind_cons, if_pos rfl]]
          rfl
        have hkeep := tfind_seed_keeps now ds _ d.ip _ hfound
        obtain rfl := Option.some_injective _ (hkeep.symm.trans hr)
        exact ⟨d, List.mem_cons_self .., rfl, rfl⟩
      · have h' : tfind (t ++ [(d.ip, seedRecord now d.hostname d.mac)]) ip = none := by
          rw [tfind_append, h]
          rw [show tfind [(d.ip, seedRecord now d.hostname d.mac)] ip = none by
            rw [tfind_cons, if_neg (fun he => hip he.symm)]; rfl]
          rfl
        obtain ⟨d', hd', hip', hrec⟩ := ih _ h' hr
        exact ⟨d', List.mem_cons_of_mem _ hd', hip', hrec⟩

/-- Seeding devices that do not carry a given absent IP leaves it absent. -/
theorem tfind_seed_none (now : ℕ) (ds : List DiscDevice) (t : TrafficTable)
    (ip : String) (h : tfind t ip = none) (hd : ∀ d ∈ ds, d.ip ≠ ip) :
    tfind (seedDeviceIPs now ds t) ip = none := by
  induction ds generalizing t with
  | nil => exact h
  | cons d ds ih =>
    unfold seedDeviceIPs
    rw [List.foldl_cons]
    split
    · exact ih t h (fun d' hd' => hd d' (List.mem_cons_of_mem _ hd'))
    · refine ih _ ?_ (fun d' hd' => hd d' (List.mem_cons_of_mem _ hd'))
      rw [tfind_append, h]
      rw [show tfind [(d.ip, seedRecord now d.hostname d.mac)] ip = none by
        rw [tfind_cons, if_neg (fun he => hd d (List.mem_cons_self ..) he.symm)]; rfl]
      rfl

/-- Every record in a reachable traffic table carries one of the two quality
tags the code ever writes. -/
theorem tableReach_datatype {t : TrafficTable} (h : TableReach t) :
    ∀ p ∈ t, p.2.dataType = "connection-only" ∨ p.2.dataType = "no-traffic-data" := by
  induction h with
  | empty => intro p hp; cases hp
  | tick now ifaceOk conns hr ih =>
    intro p hp
    have hp1 : p ∈ postIngest conns _ := ((mem_evictOld_iff now _ p).mp hp).1
    cases conns with
    | none => exact ih p hp1
    | some l =>
      rcases mem_mergeConns l _ p hp1 with h' | ⟨c, hc, rfl⟩
      · exact ih p h'
      · exact Or.inl rfl
  | seed now devices hr ih =>
    intro p hp
    rcases mem_seedDeviceIPs now devices _ p hp with h' | ⟨d, hd, rfl⟩
    · exact ih p h'
    · exact Or.inr rfl

/-- C6: after a tick in which some data source succeeded, every record whose
lastSeen age exceeds 30 s (all records have zero speed) is deleted and hence
absent from the table the next `getTrafficData()` returns, and every record
within the threshold persists into that table. -/
theorem traffic_eviction (now : ℕ) (ifaceOk : Bool)
    (conns : Option (List NetConn)) (t : TrafficTable)
    (hreal : ifaceOk = true ∨ conns.isSome = true) :
    (∀ ip r, (ip, r) ∈ postIngest conns t → r.downloadSpeed = 0 →
        r.uploadSpeed = 0 → 30000 < now - r.lastSeen →
        (ip, r) ∉ (updateTick now ifaceOk conns t).1) ∧
    (∀ ip r, (ip, r) ∈ postIngest conns t → now - r.lastSeen ≤ 30000 →
        (ip, r) ∈ (updateTick now ifaceOk conns t).1) ∧
    ∃ out, getTrafficData (updateTick now ifaceOk conns t).2
        (updateTick now ifaceOk conns t).1 = some out ∧
      (∀ ip r, (ip, r) ∈ (updateTick now ifaceOk conns t).1 →
          (ip, outOf r) ∈ out) ∧
      (∀ ip r, (ip, r) ∈ postIngest conns t → r.downloadSpeed = 0 →
          r.uploadSpeed = 0 → 30000 < now - r.lastSeen →
          (ip, outOf r) ∉ out) := by
  have herr : (updateTick now ifaceOk conns t).2 = false := by
    rcases hreal with h | h <;> simp [updateTick, h]
  have htab : (updateTick now ifaceOk conns t).1 =
      evictOld now (postIngest conns t) := rfl
  refine ⟨?_, ?_, ?_⟩
  · intro ip r hmem h1 h2 h3 hcontra
    rw [htab] at hcontra
    have hage := ((mem_evictOld_iff now _ _).mp hcontra).2
    dsimp only at hage
    omega
  · intro ip r hmem hage
    rw [htab]
    exact (mem_evictOld_iff now _ _).mpr ⟨hmem, by dsimp only; omega⟩
  · refine ⟨(updateTick now ifaceOk conns t).1.map (fun p => (p.1, outOf p.2)),
      ?_, ?_, ?_⟩
    · rw [herr]
      rfl
    · intro ip r h
      exact List.mem_map.mpr ⟨(ip, r), h, rfl⟩
    · intro ip r hmem h1 h2 h3 hcontra
      obtain ⟨q, hq, heq⟩ := List.mem_map.mp hcontra
      rw [htab] at hq
      have hage := ((mem_evictOld_iff now _ _).mp hq).2
      have houts : outOf q.2 = outOf r := congrArg Prod.snd heq
      have hlast : q.2.lastSeen = r.lastSeen := congrArg TrafficOut.lastSeen houts
      omega

/-- Witness for `traffic_eviction`: a 35 s old zero-speed record is evicted,
a 1 s old record persists. -/
theorem traffic_eviction_witness :
    ("10.0.0.9", demoStale) ∉ (updateTick 40000 false (some []) demoTable).1 ∧
      ("10.0.0.7", demoFresh) ∈ (updateTick 40000 false (some []) demoTable).1 :=
  ⟨(traffic_eviction 40000 false (some []) demoTable (Or.inr rfl)).1 "10.0.0.9"
      demoStale (by decide) rfl rfl (by decide),
    (traffic_eviction 40000 false (some []) demoTable (Or.inr rfl)).2.1 "10.0.0.7"
      demoFresh (by decide) (by decide)⟩

/-- C8: on a tick where interface counters are inaccessible but connection
enumeration succeeds, every observed connection's record is `connection-only`
with zero speed and volume fields; and no reachable traffic table ever
contains a record tagged `estimated`. -/
theorem traffic_connection_only_quality (now : ℕ) (conns : List NetConn)
    (t : TrafficTable) (hfresh : ∀ c ∈ conns, c.lastSeen = now) :
    (∀ c ∈ conns, ∃ r,
        tfind (updateTick now false (some conns) t).1 c.remoteIP = some r ∧
        r.dataType = "connection-only" ∧ r.downloadSpeed = 0 ∧
        r.uploadSpeed = 0 ∧ r.totalDownload = 0 ∧ r.totalUpload = 0) ∧
    ∀ tbl, TableReach tbl → ∀ p ∈ tbl, p.2.dataType ≠ "estimated" := by
  constructor
  · intro c hc
    obtain ⟨c', hc', hip, heq⟩ := tfind_mergeConns_covers conns t c hc
    refine ⟨connRecord c', ?_, rfl, rfl, rfl, rfl, rfl⟩
    show tfind (evictOld now (postIngest (some conns) t)) c.remoteIP = _
    refine tfind_evictOld now _ c.remoteIP (connRecord c') heq ?_
    show now - c'.lastSeen ≤ 30000
    rw [hfresh c' hc']
    omega
  · intro tbl hreach p hp
    rcases tableReach_datatype hreach p hp with h | h <;> rw [h] <;> decide

/-- Witness for `traffic_connection_only_quality` at one concrete connection
on the empty table. -/
theorem traffic_connection_only_quality_witness :
    ∃ r, tfind (updateTick 1000 false (some [demoConn]) []).1
        demoConn.remoteIP = some r ∧
      r.dataType = "connection-only" ∧ r.downloadSpeed = 0 ∧
      r.uploadSpeed = 0 ∧ r.totalDownload = 0 ∧ r.totalUpload = 0 :=
  (traffic_connection_only_quality 1000 [demoConn] [] (by decide)).1
    demoConn (by decide)

/-- C10: seeding leaves the record of every already-tracked IP completely
unchanged; only absent IPs gain a record, and such a record is the zeroed
`no-traffic-data` seed record of a device with that IP; IPs carried by no
device stay absent. -/
theorem seedDeviceIPs_frame (now : ℕ) (devices : List DiscDevice)
    (t : TrafficTable) (ip : String) :
    (∀ r, tfind t ip = some r → tfind (seedDeviceIPs now devices t) ip = some r) ∧
    (tfind t ip = none → ∀ r, tfind (seedDeviceIPs now devices t) ip = some r →
        r.downloadSpeed = 0 ∧ r.uploadSpeed = 0 ∧ r.totalDownload = 0 ∧
        r.totalUpload = 0 ∧ r.dataType = "no-traffic-data" ∧
        ∃ d ∈ devices, d.ip = ip) ∧
    (tfind t ip = none → (∀ d ∈ devices, d.ip ≠ ip) →
        tfind (seedDeviceIPs now devices t) ip = none) :=
  ⟨fun r h => tfind_seed_keeps now devices t ip r h,
    fun h r hr => by
      obtain ⟨d, hd, hip, rfl⟩ := tfind_seed_new now devices t ip h r hr
      exact ⟨rfl, rfl, rfl, rfl, rfl, d, hd, hip⟩,
    fun h hd => tfind_seed_none now devices t ip h hd⟩

/-- C7: every failure mode of the geolocation fetch — request error, timeout,
unparsable body, or a parsed body with all fields missing — resolves the
default record (`ip = "Unknown"`, all other fields empty), and
`getNetworkInfo` succeeds for every environment, in particular whatever the
geolocation and vendor-lookup outcomes are. -/
theorem publicip_failure_defaults :
    (∀ st : ℕ, getPublicIP .reqError = defaultPublicInfo ∧
      getPublicIP .timeout = defaultPublicInfo ∧
      getPublicIP (.ok st none) = defaultPublicInfo ∧
      getPublicIP (.ok st (some emptyIpInfo)) = defaultPublicInfo) ∧
    (∀ env : NetEnv, ∃ snap : NetworkSnapshot,
        getNetworkInfo env = .ok snap ∧
          snap.publicInfo = getPublicIP env.pubResp) :=
  ⟨fun _ => ⟨rfl, rfl, rfl, rfl⟩, fun _ => ⟨_, rfl, rfl⟩⟩

/-- First-occurrence pair lists look up to the generating function. -/
theorem lookup_map_pair (g : String → String) (l : List String) (m : String) :
    (l.map (fun x => (x, g x))).lookup m = if m ∈ l then some (g m) else none := by
  induction l with
  | nil => simp
  | cons x l ih =>
    simp only [List.map_cons]
    rw [List.lookup_cons]
    by_cases h : m = x
    · subst h
      simp
    · have hb : (m == x) = false := by simpa using h
      simp [hb, h, ih]

/-- The fold of `addVendorInfo`'s `seen` construction keeps the set
duplicate-free, capped at 20, and sourced from the devices folded over. -/
theorem vendorQueue_fold (ds : List DiscDevice) (seen : List String)
    (h1 : seen.Nodup) (h2 : seen.length ≤ 20) :
    (ds.foldl (fun seen d =>
        if d.mac ∈ seen ∨ 20 ≤ seen.length then seen else seen ++ [d.mac])
      seen).Nodup ∧
    (ds.foldl (fun seen d =>
        if d.mac ∈ seen ∨ 20 ≤ seen.length then seen else seen ++ [d.mac])
      seen).length ≤ 20 ∧
    ∀ m ∈ ds.foldl (fun seen d =>
        if d.mac ∈ seen ∨ 20 ≤ seen.length then seen else seen ++ [d.mac]) seen,
      m ∈ seen ∨ ∃ d ∈ ds, d.mac = m := by
  induction ds generalizing seen with
  | nil => exact ⟨h1, h2, fun m hm => Or.inl hm⟩
  | cons d ds ih =>
    rw [List.foldl_cons]
    split
    · obtain ⟨ha, hb, hc⟩ := ih seen h1 h2
      refine ⟨ha, hb, fun m hm => ?_⟩
      rcases hc m hm with h | ⟨d', hd', he⟩
      · exact Or.inl h
      · exact Or.inr ⟨d', List.mem_cons_of_mem _ hd', he⟩
    · next hcond =>
      push_neg at hcond
      obtain ⟨hmem, hlen⟩ := hcond
      have h1' : (seen ++ [d.mac]).Nodup := by
        rw [List.nodup_append]
        exact ⟨h1, List.nodup_singleton _, by
          intro a ha hb
          rw [List.mem_singleton.mp hb] at ha
          exact hmem ha⟩
      have h2' : (seen ++ [d.mac]).length ≤ 20 := by
        rw [List.length_append]
        simp only [List.length_singleton]
        omega
      obtain ⟨ha, hb, hc⟩ := ih (seen ++ [d.mac]) h1' h2'
      refine ⟨ha, hb, fun m hm => ?_⟩
      rcases hc m hm with h | ⟨d', hd', he⟩
      · rcases List.mem_append.mp h with h' | h'
        · exact Or.inl h'
        · exact Or.inr ⟨d, List.mem_cons_self ..,
            (List.mem_singleton.mp h').symm⟩
      · exact Or.inr ⟨d', List.mem_cons_of_mem _ hd', he⟩

/-- C9: per run, the vendor lookup queries a duplicate-free queue of at most
20 device MACs (hence at most 20 distinct OUI prefixes), issues them as a
sequential schedule with a fixed 120 ms inter-request delay, never drops or
fails the device batch, and annotates a device with the empty vendor string
whenever its lookup missed or failed. -/
theorem vendor_lookup_rate_limit (fetch : String → HttpOutcome String)
    (devices : List DiscDevice) :
    (vendorQueue devices).Nodup ∧
    (vendorQueue devices).length ≤ 20 ∧
    (∀ m ∈ vendorQueue devices, ∃ d ∈ devices, d.mac = m) ∧
    ((vendorQueue devices).map macOui).dedup.length ≤ 20 ∧
    (∀ p ∈ vendorSchedule devices, p.2 = 120) ∧
    (addVendorInfo fetch devices).length = devices.length ∧
    (∀ d ∈ addVendorInfo fetch devices,
        getVendorHint (fetch d.mac) = "" → d.vendor = "") := by
  obtain ⟨hnodup, hlen, hsrc⟩ :=
    vendorQueue_fold devices [] List.nodup_nil (by simp)
  have hsrc' : ∀ m ∈ vendorQueue devices, ∃ d ∈ devices, d.mac = m := by
    intro m hm
    rcases hsrc m hm with h | h
    · cases h
    · exact h
  refine ⟨hnodup, hlen, hsrc', ?_, ?_, List.length_map _ _, ?_⟩
  · calc ((vendorQueue devices).map macOui).dedup.length
        ≤ ((vendorQueue devices).map macOui).length :=
          (List.dedup_sublist _).length_le
      _ = (vendorQueue devices).length := List.length_map _ _
      _ ≤ 20 := hlen
  · intro p hp
    obtain ⟨m, _, rfl⟩ := List.mem_map.mp hp
    rfl
  · intro d hd hmiss
    obtain ⟨d0, hd0, rfl⟩ := List.mem_map.mp hd
    show orDefault ((vendorMap fetch devices).lookup d0.mac) "" = ""
    unfold vendorMap
    rw [lookup_map_pair]
    split
    · next hin =>
      have : getVendorHint (fetch d0.mac) = "" := hmiss
      rw [this]
      rfl
    · rfl

/-- Witness for `vendor_lookup_rate_limit` with an always-failing lookup
service on one concrete device. -/
theorem vendor_lookup_rate_limit_witness :
    (vendorQueue [demoDevice]).length ≤ 20 ∧ demoDevice.vendor = "" :=
  ⟨(vendor_lookup_rate_limit (fun _ => HttpOutcome.reqError) [demoDevice]).2.1,
    (vendor_lookup_rate_limit (fun _ => HttpOutcome.reqError)
        [demoDevice]).2.2.2.2.2.2 demoDevice (by decide) (by decide)⟩

/-- Witness for `seedDeviceIPs_frame`: an existing record survives seeding
untouched, and the device IP that was absent gains the seed record. -/
theorem seedDeviceIPs_frame_witness :
    tfind (seedDeviceIPs 7000 [demoDevice] demoTable) "10.0.0.9" = some demoStale ∧
      ((seedRecord 7000 demoDevice.hostname demoDevice.mac).dataType =
          "no-traffic-data" ∧
        ∃ d ∈ [demoDevice], d.ip = "192.168.1.9") :=
  ⟨(seedDeviceIPs_frame 7000 [demoDevice] demoTable "10.0.0.9").1 demoStale
      (by decide),
    by
      have h := (seedDeviceIPs_frame 7000 [demoDevice] demoTable "192.168.1.9").2.1
        (by decide) (seedRecord 7000 demoDevice.hostname demoDevice.mac) (by decide)
      exact ⟨h.2.2.2.2.1, h.2.2.2.2.2⟩⟩

end NetPulse
